import Mathlib

/-!
Shallow embedding of `lsf.py` (barton001/ls-plus-find), a combined `ls`/`find`
utility.  The embedding models:

* the typed scalar classes `Unixtime`, `Uid`, `Gid`, `FileSize` with their
  string parsers, process-lifetime caches and comparison decorators;
* the filter-predicate system (`FileStats.add_filter`, `passes_filters`,
  `apply_all_filters`, `typecode_list_from_string`, `parse_value_list`);
* the sort engine (`sort_stats` plus the sort-spec normalisation done in
  `main`);
* the traversal engine (`stat_files`, `stat_directory`, `show_paths`) for a
  single starting path.

Modelling conventions:
* Python machine floats are modelled as exact decimal values `Dec`
  (an integer numerator over a power-of-ten denominator; the spec itself
  describes size/time arithmetic over exact values, and all concrete inputs
  used below are exactly representable as machine floats);
* `float(...)` / `int(...)` literal parsing is modelled for plain decimal
  literals (optional sign, digits, optional fractional part), the subset
  exercised by the tool;
* `time.time()` is an integer parameter `now` (second resolution, as used by
  the code through `int(...)`);
* `time.mktime` (timezone dependent) is an explicit environment parameter
  `mktime : Tm -> Int` receiving the fields produced by `time.strptime`;
* the `pwd` / `grp` databases, `re.compile` and Python `eval` are environment
  parameters;
* Python exceptions are an explicit error type `PyErr`; `raise` becomes
  `Except.error`.
-/

/-- Python exception model: the exception classes raised or caught by the
relevant `lsf.py` code paths. -/
inductive PyErr where
  | valueError (msg : String)
  | indexError
  | argTypeError (msg : String)
  | reError
  | nameError
deriving DecidableEq

/-- A single ASCII apostrophe, used by the error-message formats of
`lsf.py` (quoting the offending input, then naming the expected kind). -/
def pyq : String := String.mk [Char.ofNat 39]

/-- An exact decimal value `num / 10 ^ exp`: the model of a Python float
holding the value of a decimal literal. -/
structure Dec where
  num : ℤ
  exp : ℕ
deriving DecidableEq

/-- Multiplication of a float by a non-negative integer constant (the unit
multipliers 512, 1024, 60, ... applied by the parsers). -/
def Dec.scale (d : Dec) (m : ℕ) : Dec := ⟨d.num * m, d.exp⟩

/-- Python `int(...)` truncation of a float toward zero (`Int.tdiv` is
truncated division, matching CPython `int(float)`). -/
def pytrunc (d : Dec) : ℤ := Int.tdiv d.num ((10 : ℤ) ^ d.exp)

/-- Value of a digit list, most significant first (all chars assumed digits). -/
def digitsToNat (l : List Char) : ℕ :=
  l.foldl (fun a c => a * 10 + (c.toNat - 48)) 0

/-- Split a character list at every separator recognised by `p`
(`"a,b,".split(",") = ["a","b",""]` shape: n separators give n+1 chunks). -/
def splitOnP (p : Char → Bool) : List Char → List (List Char)
  | [] => [[]]
  | c :: cs =>
    let r := splitOnP p cs
    if p c then [] :: r
    else
      match r with
      | [] => [[c]]
      | t :: ts => (c :: t) :: ts

/-- Python `s.split(sep)` for a one-character separator. -/
def pySplitChar (sep : Char) (s : String) : List String :=
  (splitOnP (fun c => c = sep) s.data).map String.mk

/-- Model of Python `float(s)` for plain decimal literals: optional sign,
then digits with an optional single decimal point; at least one digit.
Returns the exact decimal value. -/
def pyFloat? (s : String) : Option Dec :=
  let p : ℤ × List Char :=
    match s.data with
    | '+' :: r => (1, r)
    | '-' :: r => (-1, r)
    | r => (1, r)
  match splitOnP (fun c => c = '.') p.2 with
  | [d] =>
    if d ≠ [] ∧ d.all Char.isDigit then some ⟨p.1 * digitsToNat d, 0⟩ else none
  | [a, b] =>
    if (a ++ b) ≠ [] ∧ (a ++ b).all Char.isDigit then
      some ⟨p.1 * (digitsToNat a * 10 ^ b.length + digitsToNat b), b.length⟩
    else none
  | _ => none

/-- Model of Python `int(s)` on strings: optional sign then decimal digits. -/
def pyIntStr? (s : String) : Option ℤ :=
  match s.data with
  | [] => none
  | '+' :: r => if r ≠ [] ∧ r.all Char.isDigit then some (digitsToNat r : ℤ) else none
  | '-' :: r => if r ≠ [] ∧ r.all Char.isDigit then some (-(digitsToNat r : ℤ)) else none
  | l => if l.all Char.isDigit then some (digitsToNat l : ℤ) else none

/-- Python `s.split()` with no arguments: split on whitespace runs,
discarding empty tokens. -/
def pySplitWs (s : String) : List String :=
  ((splitOnP Char.isWhitespace s.data).map String.mk).filter (fun t => t ≠ "")

/-- The process-lifetime string-to-value caches (`known_strings`,
`known_usernames`, `known_groups`) as association lists, newest first. -/
abbrev Cache := List (String × ℤ)

/-- Dictionary lookup `key in cache` / `cache[key]`. -/
def lookupCache (c : Cache) (s : String) : Option ℤ :=
  (c.find? (fun p => p.1 == s)).map (fun p => p.2)

/-- The six comparison dunder methods each scalar class wraps. -/
inductive CmpOp where
  | lt | le | gt | ge | eq | ne
deriving DecidableEq

/-- Numeric meaning of each comparison operator (`self.value OP other`). -/
def CmpOp.interp (op : CmpOp) (a b : ℤ) : Bool :=
  match op with
  | .lt => decide (a < b)
  | .le => decide (a ≤ b)
  | .gt => decide (b < a)
  | .ge => decide (b ≤ a)
  | .eq => decide (a = b)
  | .ne => decide (a ≠ b)

/-- The multiplier chain applied by `FileSize.from_string` for each unit
character: blocks 512, kilobytes 1024, megabytes, gigabytes; no unit
leaves the value as raw bytes. -/
def size_multiplier (m : Option Char) (q : Dec) : Dec :=
  match m with
  | some 'b' => q.scale 512
  | some 'k' => q.scale 1024
  | some 'm' => (q.scale 1024).scale 1024
  | some 'g' => ((q.scale 1024).scale 1024).scale 1024
  | _ => q

/-- The multiplier chain applied by `Unixtime.reltime_to_secs` for each
unit character: minutes, hours, days, weeks, years (365 days). -/
def time_multiplier (m : Char) (q : Dec) : Dec :=
  match m with
  | 'm' => q.scale 60
  | 'h' => (q.scale 60).scale 60
  | 'd' => ((q.scale 60).scale 60).scale 24
  | 'w' => (((q.scale 60).scale 60).scale 24).scale 7
  | 'y' => (((q.scale 60).scale 60).scale 24).scale 365
  | _ => q

namespace FileSize

/-- `FileSize.from_string` without the memo cache: strip an optional
lower-case multiplier character `b`/`k`/`m`/`g` (the code checks
`size_str[-1]` against the literal `"bkmg"`, with no case folding), parse
the rest with `float(...)`, scale, and truncate with `int(...)`.
An empty string hits `size_str[-1]` and raises `IndexError`. -/
def from_string_compute (size_str : String) : Except PyErr ℤ :=
  match size_str.data.getLast? with
  | none => .error .indexError
  | some m =>
    let p : Option Char × String :=
      if m ∈ ['b', 'k', 'm', 'g'] then (some m, String.mk size_str.data.dropLast)
      else (none, size_str)
    match pyFloat? p.2 with
    | none => .error (.valueError (pyq ++ size_str ++ pyq ++ " is not a valid FILESIZE string"))
    | some q => .ok (pytrunc (size_multiplier p.1 q))

/-- `FileSize.from_string`: consult `FileSize.known_strings`, otherwise
compute and cache the result. -/
def from_string (c : Cache) (size_str : String) : Except PyErr (ℤ × Cache) :=
  match lookupCache c size_str with
  | some v => .ok (v, c)
  | none =>
    match from_string_compute size_str with
    | .ok n => .ok (n, (size_str, n) :: c)
    | .error e => .error e

/-- The `arg_to_int`-decorated comparison methods of `FileSize`: a string
right operand is first converted by `FileSize.from_string`, then the stored
integer values are compared. -/
def compare (op : CmpOp) (self : ℤ) (other : ℤ ⊕ String) (c : Cache) :
    Except PyErr (Bool × Cache) :=
  match other with
  | .inl n => .ok (op.interp self n, c)
  | .inr s => (from_string c s).map (fun p => (op.interp self p.1, p.2))

end FileSize

/-- The fields `time.strptime` extracts for the formats used by the code
(`%b %d %Y` and `%b %d %Y %H:%M`): month 1..12, day 1..31, 4-digit year,
hour 0..23, minute 0..59. -/
structure Tm where
  mon : ℕ
  day : ℕ
  year : ℕ
  hour : ℕ
  min : ℕ
deriving DecidableEq

/-- Lower-case month abbreviations recognised by `%b` (case-insensitive). -/
def monthAbbrevs : List String :=
  ["jan", "feb", "mar", "apr", "may", "jun", "jul", "aug", "sep", "oct", "nov", "dec"]

/-- `%b`: case-insensitive month-abbreviation lookup, 1-based month number. -/
def parseMonth? (t : String) : Option ℕ :=
  (monthAbbrevs.indexOf? (String.mk (t.data.map Char.toLower))).map (fun i => i + 1)

/-- A 1- or 2-digit numeric field within the inclusive range `[lo, hi]`. -/
def parseNum2? (t : String) (lo hi : ℕ) : Option ℕ :=
  if t.data ≠ [] ∧ t.data.length ≤ 2 ∧ t.data.all Char.isDigit then
    let v := digitsToNat t.data
    if lo ≤ v ∧ v ≤ hi then some v else none
  else none

/-- `%Y`: exactly four digits. -/
def parseYear4? (t : String) : Option ℕ :=
  if t.data.length = 4 ∧ t.data.all Char.isDigit then some (digitsToNat t.data) else none

/-- `time.strptime(s, "%b %d %Y")`: three whitespace-separated tokens,
midnight implied. -/
def strptime3 (s : String) : Option Tm :=
  match pySplitWs s with
  | [m, d, y] =>
    match parseMonth? m, parseNum2? d 1 31, parseYear4? y with
    | some mon, some day, some year => some ⟨mon, day, year, 0, 0⟩
    | _, _, _ => none
  | _ => none

/-- `time.strptime(s, "%b %d %Y %H:%M")`: four whitespace-separated tokens,
the last of the form `H:M`. -/
def strptime4 (s : String) : Option Tm :=
  match pySplitWs s with
  | [m, d, y, hm] =>
    match pySplitChar ':' hm with
    | [h, mi] =>
      match parseMonth? m, parseNum2? d 1 31, parseYear4? y,
            parseNum2? h 0 23, parseNum2? mi 0 59 with
      | some mon, some day, some year, some hour, some minute =>
        some ⟨mon, day, year, hour, minute⟩
      | _, _, _, _, _ => none
    | _ => none
  | _ => none

namespace Unixtime

/-- `Unixtime.reltime_to_secs`: lower-case the last character; if it is one
of `m`/`h`/`d`/`w`/`y` strip it, otherwise the unit defaults to days and the
whole string is the number; parse with `float(...)`, scale to seconds
(minute 60, hour 3600, day 86400, week 604800, year 365 days), truncate with
`int(...)`.  An empty string raises `IndexError` from `time_str[-1]`. -/
def reltime_to_secs (time_str : String) : Except PyErr ℤ :=
  match time_str.data.getLast? with
  | none => .error .indexError
  | some c0 =>
    let m := c0.toLower
    let p : Char × String :=
      if m ∈ ['m', 'h', 'd', 'w', 'y'] then (m, String.mk time_str.data.dropLast)
      else ('d', time_str)
    match pyFloat? p.2 with
    | none => .error (.valueError (pyq ++ time_str ++ pyq ++ " is not a valid DATETIME string"))
    | some q => .ok (pytrunc (time_multiplier p.1 q))

/-- The uncached body of `Unixtime.str_to_secs`: try the relative form
(`except ValueError` falls through to the absolute form, any other
exception propagates); the absolute form picks `"%b %d %Y"` exactly when
the string splits into three tokens, else `"%b %d %Y %H:%M"`, and feeds the
parsed fields to `time.mktime`. -/
def str_to_secs_compute (now : ℤ) (mktime : Tm → ℤ) (time_str : String) :
    Except PyErr ℤ :=
  match reltime_to_secs time_str with
  | .ok secs => .ok (now - secs)
  | .error (.valueError _) =>
    let tm? :=
      if (pySplitWs time_str).length = 3 then strptime3 time_str else strptime4 time_str
    match tm? with
    | some tm => .ok (mktime tm)
    | none => .error (.valueError (pyq ++ time_str ++ pyq ++ " is not a valid DATETIME"))
  | .error e => .error e

/-- `Unixtime.str_to_secs`: consult `Unixtime.known_strings`, otherwise
compute (with the clock value `now` of this call) and cache the result. -/
def str_to_secs (now : ℤ) (mktime : Tm → ℤ) (c : Cache) (time_str : String) :
    Except PyErr (ℤ × Cache) :=
  match lookupCache c time_str with
  | some v => .ok (v, c)
  | none =>
    match str_to_secs_compute now mktime time_str with
    | .ok u => .ok (u, (time_str, u) :: c)
    | .error e => .error e

/-- The `arg_to_unixtime`-decorated comparison methods of `Unixtime`. -/
def compare (now : ℤ) (mktime : Tm → ℤ) (op : CmpOp) (self : ℤ)
    (other : ℤ ⊕ String) (c : Cache) : Except PyErr (Bool × Cache) :=
  match other with
  | .inl n => .ok (op.interp self n, c)
  | .inr s => (str_to_secs now mktime c s).map (fun p => (op.interp self p.1, p.2))

end Unixtime

namespace Uid

/-- `Uid.from_str`: consult `Uid.known_usernames`; on Windows return `0`
(uncached); otherwise try `int(...)`, then the `pwd` database `pw`; an
unknown name raises `ValueError`; successes are cached. -/
def from_str (win : Bool) (pw : String → Option ℤ) (c : Cache) (user_or_id : String) :
    Except PyErr (ℤ × Cache) :=
  match lookupCache c user_or_id with
  | some v => .ok (v, c)
  | none =>
    if win then .ok (0, c)
    else
      match pyIntStr? user_or_id with
      | some n => .ok (n, (user_or_id, n) :: c)
      | none =>
        match pw user_or_id with
        | some uid => .ok (uid, (user_or_id, uid) :: c)
        | none => .error (.valueError (pyq ++ user_or_id ++ pyq ++ " is not a valid username or UID"))

/-- The `make_uid`-decorated comparison methods of `Uid`. -/
def compare (win : Bool) (pw : String → Option ℤ) (op : CmpOp) (self : ℤ)
    (other : ℤ ⊕ String) (c : Cache) : Except PyErr (Bool × Cache) :=
  match other with
  | .inl n => .ok (op.interp self n, c)
  | .inr s => (from_str win pw c s).map (fun p => (op.interp self p.1, p.2))

end Uid

namespace Gid

/-- `Gid.from_str`: like `Uid.from_str` with the `grp` database `gr`. -/
def from_str (win : Bool) (gr : String → Option ℤ) (c : Cache) (group_or_id : String) :
    Except PyErr (ℤ × Cache) :=
  match lookupCache c group_or_id with
  | some v => .ok (v, c)
  | none =>
    if win then .ok (0, c)
    else
      match pyIntStr? group_or_id with
      | some n => .ok (n, (group_or_id, n) :: c)
      | none =>
        match gr group_or_id with
        | some gid => .ok (gid, (group_or_id, gid) :: c)
        | none => .error (.valueError (pyq ++ group_or_id ++ pyq ++ " is not a valid group name or GID"))

/-- The `make_gid`-decorated comparison methods of `Gid`. -/
def compare (win : Bool) (gr : String → Option ℤ) (op : CmpOp) (self : ℤ)
    (other : ℤ ⊕ String) (c : Cache) : Except PyErr (Bool × Cache) :=
  match other with
  | .inl n => .ok (op.interp self n, c)
  | .inr s => (from_str win gr c s).map (fun p => (op.interp self p.1, p.2))

end Gid

/-- `FileStats`: the `os.lstat` result tuple extended with path, name,
filepath, link target and the `S_IFMT` type code (indices 0..14 in the order
of `FileStats.field_words`).  Numeric stats are integers, text stats are
strings. -/
structure FileRec where
  Mode : ℤ
  inode : ℤ
  dev : ℤ
  Nlink : ℤ
  uid : ℤ
  gid : ℤ
  size : ℤ
  atime : ℤ
  mtime : ℤ
  ctime : ℤ
  path : String
  name : String
  filepath : String
  target : String
  Typecode : ℤ
deriving DecidableEq

/-- `self.stats[index]` for the integer-valued fields used by the
relational and membership filters. -/
def statInt (r : FileRec) (index : ℕ) : ℤ :=
  match index with
  | 0 => r.Mode
  | 1 => r.inode
  | 2 => r.dev
  | 3 => r.Nlink
  | 4 => r.uid
  | 5 => r.gid
  | 6 => r.size
  | 7 => r.atime
  | 8 => r.mtime
  | 9 => r.ctime
  | 14 => r.Typecode
  | _ => 0

/-- `self.stats[index]` for the string-valued fields used by the regex
filters. -/
def statStr (r : FileRec) (index : ℕ) : String :=
  match index with
  | 10 => r.path
  | 11 => r.name
  | 12 => r.filepath
  | 13 => r.target
  | _ => ""

/-- One entry of `FileStats.filter_list`: the `(field, comparison, value,
field_index, native_value)` tuples appended by `add_filter`, with the
comparison tag and the type of the resolved native value combined into one
constructor.  Compiled regexes are modelled by their `search` extension
`String -> Bool`; a registered Python expression by its per-record
Boolean meaning `FileRec -> Bool`. -/
inductive LsFilter where
  | lt (field value : String) (index : ℕ) (n : ℤ)
  | gt (field value : String) (index : ℕ) (n : ℤ)
  | mem (field value : String) (index : ℕ) (l : List ℤ)
  | notMem (field value : String) (index : ℕ) (l : List ℤ)
  | rmatch (field value : String) (index : ℕ) (p : String → Bool)
  | rnotmatch (field value : String) (index : ℕ) (p : String → Bool)
  | pyeval (value : String) (g : FileRec → Bool)

/-- One iteration of the dispatch in `FileStats.passes_filters`: whether
this record satisfies one registered filter. -/
def evalFilter (r : FileRec) : LsFilter → Bool
  | .lt _ _ i n => decide (statInt r i < n)
  | .gt _ _ i n => decide (n < statInt r i)
  | .mem _ _ i l => decide (statInt r i ∈ l)
  | .notMem _ _ i l => decide (statInt r i ∉ l)
  | .rmatch _ _ i p => p (statStr r i)
  | .rnotmatch _ _ i p => !p (statStr r i)
  | .pyeval _ g => g r

/-- `FileStats.passes_filters`: walk the registered filter list, `break`
with a false result at the first failing filter. -/
def passes_filters (fl : List LsFilter) (r : FileRec) : Bool :=
  match fl with
  | [] => true
  | f :: rest => if evalFilter r f then passes_filters rest r else false

/-- Instrumented version of `passes_filters` additionally counting how many
filters were evaluated before the loop finished (it `break`s at the first
failure). -/
def passes_filters_count (fl : List LsFilter) (r : FileRec) : Bool × ℕ :=
  match fl with
  | [] => (true, 0)
  | f :: rest =>
    if evalFilter r f then
      let p := passes_filters_count rest r
      (p.1, p.2 + 1)
    else (false, 1)

/-- `apply_all_filters`: with no registered filters return the input list
object unchanged, otherwise keep the records passing all filters. -/
def apply_all_filters (fl : List LsFilter) (statlist : List FileRec) : List FileRec :=
  if fl.isEmpty then statlist
  else statlist.filter (fun stats => passes_filters fl stats)

/-- `arg_has_plus`: strip one leading `+`, reporting whether it was there.
(On the empty string the Python code would raise `IndexError` from
`arg_string[0]`; all call sites guard against that case.) -/
def arg_has_plus (arg_string : String) : String × Bool :=
  match arg_string.data with
  | '+' :: rest => (String.mk rest, true)
  | _ => (arg_string, false)

/-- `FileStats.field_words`, in stats-index order. -/
def field_words : List String :=
  ["Mode", "inode", "dev", "Nlink", "uid", "gid", "size", "atime",
   "mtime", "ctime", "path", "name", "filepath", "target", "Typecode"]

/-- `FileStats.field_words.index(field)`. -/
def fieldIndex (field : String) : ℕ := field_words.indexOf field

/-- `FileStats.file_type_words`. -/
def file_type_words : List String :=
  ["regular", "dir", "link", "char", "block", "pipe", "socket"]

/-- `FileStats.file_type_chars` (first letters of the type words), kept in
word order. -/
def file_type_chars : List Char := ['r', 'd', 'l', 'c', 'b', 'p', 's']

/-- `FileTypeCode.from_char`: map a type letter to the `stat` `S_IFMT`
constant (`S_IFDIR` 0o040000 etc.). -/
def FileTypeCode.from_char : Char → ℤ
  | 'd' => 16384
  | 'c' => 8192
  | 'b' => 24576
  | 'r' => 32768
  | 'l' => 40960
  | 'p' => 4096
  | 's' => 49152
  | _ => 0

/-- The word loop of `parse_value_list`: check each comma-separated word
against `valid_words` and keep its first letter. -/
def parse_word_list (valid_words : List String) : List String → Except PyErr String
  | [] => .ok ""
  | w :: ws =>
    if w ∈ valid_words then
      (parse_word_list valid_words ws).map (fun rest => String.mk [w.data.headD ' '] ++ rest)
    else
      .error (.valueError (pyq ++ w ++ pyq ++ " not in [" ++
        String.intercalate ", " (valid_words.map (fun v => pyq ++ v ++ pyq)) ++ "]"))

/-- `parse_value_list`: convert a comma-separated word list, or a string of
first letters, into the string of first letters of `valid_words`, checking
validity and reproducing the error messages of the source. -/
def parse_value_list (val_list : String) (valid_words : List String) :
    Except PyErr String :=
  if val_list = "" then .error (.valueError "missing value")
  else
    let valid_letters := valid_words.map (fun w => w.data.headD ' ')
    let words := pySplitChar ',' val_list
    if words.length = 1 then
      if val_list.data.all (fun ch => ch ∈ valid_letters) then .ok val_list
      else
        let msg := pyq ++ val_list ++ pyq ++ " contains letters not in " ++
          pyq ++ String.mk valid_letters ++ pyq ++ "."
        let msg :=
          if val_list ∈ valid_words then
            msg ++ "\nIf you meant the keyword " ++ pyq ++ val_list ++ pyq ++
              ", you need to follow it with a comma."
          else msg
        .error (.valueError msg)
    else
      let words := if words.getLast? = some "" then words.dropLast else words
      parse_word_list valid_words words

/-- The resolved set of type characters built inside
`typecode_list_from_string`: strip a `+` (include mode), run
`parse_value_list` over the file-type words (re-raising a `ValueError` as
`argparse.ArgumentTypeError` as the source does), deduplicate, and in
include mode complement against `file_type_chars`. -/
def resolved_tc_set (type_list : String) : Except PyErr (List Char) :=
  let p := arg_has_plus type_list
  match parse_value_list p.1 file_type_words with
  | .error (.valueError m) => .error (.argTypeError m)
  | .error e => .error e
  | .ok tstring =>
    let tc_set := tstring.data.dedup
    .ok (if p.2 then file_type_chars.filter (fun ch => ch ∉ tc_set) else tc_set)

/-- `typecode_list_from_string`: map the resolved type characters to
`S_IFMT` codes, and whenever the link letter `l` is in the set also append
type code `0`, the sentinel the stat layer uses for a broken symbolic
link. -/
def typecode_list_from_string (type_list : String) : Except PyErr (List ℤ) :=
  (resolved_tc_set type_list).map (fun tc_set =>
    let l := tc_set.map FileTypeCode.from_char
    if 'l' ∈ tc_set then l ++ [0] else l)

/-- The ambient process state `add_filter` reads: platform flag, `pwd` and
`grp` databases, the clock and `time.mktime` for datetime operands,
`re.compile` (`none` models `re.error`) and Python `eval` of a filter
expression (`none` models a failure when the expression is test-evaluated
at registration). -/
structure Env where
  win : Bool
  pw : String → Option ℤ
  gr : String → Option ℤ
  now : ℤ
  mktime : Tm → ℤ
  regex : String → Option (String → Bool)
  pyexp : String → Option (FileRec → Bool)

/-- `FileStats.add_filter`: strip a leading `+` on the operand (selecting
the alternate comparison; stripping must leave a non-empty operand), then
resolve the operand per field: `python` test-evaluates the expression,
`Typecode` resolves a type-code exclude list, `uid`/`gid` resolve
comma-separated member lists through `Uid.from_str`/`Gid.from_str`
(the process caches start empty at each lookup here; caching only memoizes
the same pure lookup), the time fields parse through
`Unixtime.str_to_secs`, `size` through `FileSize.from_string`, and the text
fields compile a regex.  Fields with no registered comparison would leave
`comparison` unbound (`NameError`). -/
def add_filter (env : Env) (field : String) (value : String) : Except PyErr LsFilter :=
  match value.data with
  | [] => .error .indexError
  | c0 :: rest =>
    let opIndex : ℕ := if c0 = '+' then 1 else 0
    let value := if c0 = '+' then String.mk rest else value
    if opIndex = 1 ∧ value = "" then .error (.valueError "") else
    if field = "python" then
      match env.pyexp value with
      | none => .error (.valueError "")
      | some g => .ok (.pyeval value g)
    else if field = "Typecode" then
      match typecode_list_from_string value with
      | .error e => .error e
      | .ok l =>
        .ok (if opIndex = 0 then .notMem field value (fieldIndex field) l
             else .mem field value (fieldIndex field) l)
    else if field = "uid" then
      match (pySplitChar ',' value).mapM (fun u => (Uid.from_str env.win env.pw [] u).map (fun p => p.1)) with
      | .error e => .error e
      | .ok l =>
        .ok (if opIndex = 0 then .mem field value (fieldIndex field) l
             else .notMem field value (fieldIndex field) l)
    else if field = "gid" then
      match (pySplitChar ',' value).mapM (fun g => (Gid.from_str env.win env.gr [] g).map (fun p => p.1)) with
      | .error e => .error e
      | .ok l =>
        .ok (if opIndex = 0 then .mem field value (fieldIndex field) l
             else .notMem field value (fieldIndex field) l)
    else if field = "mtime" ∨ field = "atime" ∨ field = "ctime" then
      match (Unixtime.str_to_secs env.now env.mktime [] value).map (fun p => p.1) with
      | .error e => .error e
      | .ok n =>
        .ok (if opIndex = 0 then .gt field value (fieldIndex field) n
             else .lt field value (fieldIndex field) n)
    else if field = "size" then
      match (FileSize.from_string [] value).map (fun p => p.1) with
      | .error e => .error e
      | .ok n =>
        .ok (if opIndex = 0 then .lt field value (fieldIndex field) n
             else .gt field value (fieldIndex field) n)
    else if field = "name" ∨ field = "path" ∨ field = "filepath" then
      match env.regex value with
      | none => .error .reError
      | some p =>
        .ok (if opIndex = 0 then .rmatch field value (fieldIndex field) p
             else .rnotmatch field value (fieldIndex field) p)
    else .error .nameError

/-- A sort-key value as produced by `itemgetter(field_letter)` on a
`FileStats` object: an integer or a string depending on the field. -/
inductive FieldVal where
  | int (n : ℤ)
  | str (s : String)
deriving DecidableEq

/-- Python `<` on strings: lexicographic comparison of code points. -/
def pyStrLt : List Char → List Char → Bool
  | [], [] => false
  | [], _ :: _ => true
  | _ :: _, [] => false
  | a :: as, b :: bs =>
    if a.toNat < b.toNat then true
    else if b.toNat < a.toNat then false
    else pyStrLt as bs

/-- Python `<` between two key values of the same kind (the sort engine
only ever compares values of one field with each other). -/
def FieldVal.pylt : FieldVal → FieldVal → Bool
  | .int a, .int b => decide (a < b)
  | .str a, .str b => pyStrLt a.data b.data
  | _, _ => false

/-- `stats[field_letter]`: first-letter field access used by the sort keys
(`field_letters.index(letter)` then tuple indexing). -/
def getField (letter : Char) (r : FileRec) : FieldVal :=
  match letter with
  | 'M' => .int r.Mode
  | 'i' => .int r.inode
  | 'd' => .int r.dev
  | 'N' => .int r.Nlink
  | 'u' => .int r.uid
  | 'g' => .int r.gid
  | 's' => .int r.size
  | 'a' => .int r.atime
  | 'm' => .int r.mtime
  | 'c' => .int r.ctime
  | 'p' => .str r.path
  | 'n' => .str r.name
  | 'f' => .str r.filepath
  | 't' => .str r.target
  | 'T' => .int r.Typecode
  | _ => .int 0

/-- Stable insertion: `x` is placed after exactly the leading elements `y`
that are strictly smaller (`lt y x`), so elements comparing equal keep `x`
(the earlier input element, inserted last by `py_sort`) in front. -/
def py_insert (lt : α → α → Bool) (x : α) : List α → List α
  | [] => [x]
  | y :: ys => if lt y x then y :: py_insert lt x ys else x :: y :: ys

/-- Stable sort by the strict comparison `lt`; the unique stable sort, so it
models CPython `list.sort` (Timsort) extensionally. -/
def py_sort (lt : α → α → Bool) : List α → List α
  | [] => []
  | x :: xs => py_insert lt x (py_sort lt xs)

/-- `statlist.sort(key=itemgetter(letter), reverse=reverse)`: stable sort by
one field, globally reversed when the sort spec had a leading `+`. -/
def list_sort_key (key : α → FieldVal) (reverse : Bool) (l : List α) : List α :=
  py_sort (fun a b => if reverse then (key b).pylt (key a) else (key a).pylt (key b)) l

/-- `sort_stats`: split a leading `+` (global descending flag) off
`OPTS.sort`, then run one stable single-key sort per field letter from the
last letter to the first, so the first letter dominates. -/
def sort_stats (sortSpec : String) (statlist : List FileRec) : List FileRec :=
  let p := arg_has_plus sortSpec
  p.1.data.reverse.foldl (fun acc letter => list_sort_key (getField letter) p.2 acc) statlist

/-- The sort-spec normalisation in `main`: a missing (or empty) `-S` option
becomes `"n"`, and a name key `n` is appended when the spec lacks one so
that otherwise-equal lines sort by file name. -/
def effective_sort (optSort : Option String) : String :=
  let s := match optSort with
    | none => "n"
    | some t => if t = "" then "n" else t
  if 'n' ∈ s.data then s else s ++ "n"

/-- `f[0] == "."`: a hidden directory entry (entry names coming from
`os.listdir` are never empty). -/
def isHiddenName (s : String) : Bool :=
  match s.data with
  | '.' :: _ => true
  | _ => false

/-- One filesystem entry as the traversal sees it: its directory-entry name
and the result of `os.lstat` (`none` models a stat failure, which
`FileStats.__init__` reports to stderr and flags with `self.error`); a
directory node additionally carries its children. -/
inductive FsNode where
  | file (name : String) (st : Option FileRec)
  | dir (name : String) (st : Option FileRec) (children : List FsNode)

/-- The entry name (`os.listdir` result). -/
def nodeName : FsNode → String
  | .file n _ => n
  | .dir n _ _ => n

/-- The entry stat result. -/
def nodeStat : FsNode → Option FileRec
  | .file _ st => st
  | .dir _ st _ => st

/-- `os.path.isdir(f) and not os.path.islink(f)`: a symlink to a directory
is modelled as a `file` node (the traversal never descends through it). -/
def isDirNode : FsNode → Bool
  | .dir _ _ _ => true
  | _ => false

/-- `stat_files`: stat every path, keeping only the successful records. -/
def stat_files (nodes : List FsNode) : List FileRec :=
  nodes.filterMap nodeStat

/-- The traversal options read from `OPTS`: hidden-file inclusion (`-A`),
merge mode (`-M`), recursion (`-R`), and the normalised sort spec. -/
structure Opts where
  all : Bool
  merge : Bool
  recursive : Bool
  sort : String

/-- The record transformation performed by `display_statlist` on the group
it is handed: apply all registered filters, then sort (display and totals
consume the result without reordering it). -/
def finalize (o : Opts) (fl : List LsFilter) (statlist : List FileRec) : List FileRec :=
  sort_stats o.sort (apply_all_filters fl statlist)

/-- `stat_directory`: list the directory, drop hidden names unless `-A`,
stat the survivors; in default mode hand the group to `display_statlist` at
once and return no records, in merge mode return them; with `-R` recurse
into non-link subdirectories afterwards, appending their displayed groups
and returned records.  Returns (displayed groups, returned statlist).
The `fuel` argument bounds recursion depth (Python recursion is unbounded);
every theorem below holds for every fuel value. -/
def stat_directory (o : Opts) (fl : List LsFilter) : ℕ → FsNode → List (List FileRec) × List FileRec
  | 0, _ => ([], [])
  | _ + 1, .file _ _ => ([], [])
  | fuel + 1, .dir _ _ children =>
    let files := if o.all then children
      else children.filter (fun f => !isHiddenName (nodeName f))
    if files.isEmpty then ([], [])
    else
      let statlist := stat_files files
      let p : List (List FileRec) × List FileRec :=
        if !o.merge then ([finalize o fl statlist], []) else ([], statlist)
      if o.recursive then
        let subdirectories := files.filter isDirNode
        let results := subdirectories.map (stat_directory o fl fuel)
        (p.1 ++ (results.map Prod.fst).flatten, p.2 ++ (results.map Prod.snd).flatten)
      else p

/-- `show_paths` specialised to one starting directory path (the single
flat directory scenario; `OPTS.directory` off): run `stat_directory`, then
flush any remaining records (merge mode) through `display_statlist`.
The result is the sequence of displayed groups. -/
def show_paths_single (o : Opts) (fl : List LsFilter) (fuel : ℕ) (d : FsNode) :
    List (List FileRec) :=
  let p := stat_directory o fl fuel d
  p.1 ++ (if p.2.isEmpty then [] else [finalize o fl p.2])

/-! ### Helper lemmas about the parsers and caches -/

theorem string_mk_data (s : String) : String.mk s.data = s := rfl

/-- Appending a recognised multiplier character selects the suffix branch of
`FileSize.from_string_compute`. -/
theorem from_string_compute_suffix (s : String) (q : Dec) (m : Char)
    (hm : m ∈ ['b', 'k', 'm', 'g']) (hq : pyFloat? s = some q) :
    FileSize.from_string_compute (s ++ String.mk [m]) =
      .ok (pytrunc (size_multiplier (some m) q)) := by
  unfold FileSize.from_string_compute
  rw [String.data_append s (String.mk [m])]
  simp only [show (String.mk [m]).data = [m] from rfl, List.getLast?_concat,
    List.dropLast_concat, hm, if_true, string_mk_data, hq]

/-- A last character that is not a multiplier selects the raw-bytes branch
of `FileSize.from_string_compute`. -/
theorem from_string_compute_nosuffix (s : String) (q : Dec) (m : Char)
    (hlast : s.data.getLast? = some m) (hm : m ∉ ['b', 'k', 'm', 'g'])
    (hq : pyFloat? s = some q) :
    FileSize.from_string_compute s = .ok (pytrunc q) := by
  unfold FileSize.from_string_compute
  rw [hlast]
  simp only [hm, if_false, hq]
  rfl

/-- A cache miss makes `FileSize.from_string` compute and push the result. -/
theorem from_string_miss_ok (c : Cache) (s : String) (n : ℤ)
    (hc : lookupCache c s = none) (h : FileSize.from_string_compute s = .ok n) :
    FileSize.from_string c s = .ok (n, (s, n) :: c) := by
  unfold FileSize.from_string
  rw [hc, h]

/-- Claim C1 (amended): `FileSize.from_string` parses a numeric string with
an optional case-SENSITIVE lower-case unit suffix `b`/`k`/`m`/`g` into bytes
by scaling with 512, 1024, 1024^2 or 1024^3 respectively, uses raw bytes
when no suffix is present, and truncates fractional results to an integer
after scaling; `"10k"` parses to 10240 and `"10.5k"` to 10752, while
`"10KB"` (and any upper-case suffix, e.g. `"10M"`) is rejected with a
`ValueError`.  Stated for a first (cache-miss) parse; hits return the
cached value. -/
theorem fileSize_from_string_spec :
    (∀ (s : String) (q : Dec) (c : Cache), pyFloat? s = some q →
      lookupCache c (s ++ "b") = none →
      FileSize.from_string c (s ++ "b") =
        .ok (pytrunc (q.scale 512), (s ++ "b", pytrunc (q.scale 512)) :: c))
  ∧ (∀ (s : String) (q : Dec) (c : Cache), pyFloat? s = some q →
      lookupCache c (s ++ "k") = none →
      FileSize.from_string c (s ++ "k") =
        .ok (pytrunc (q.scale 1024), (s ++ "k", pytrunc (q.scale 1024)) :: c))
  ∧ (∀ (s : String) (q : Dec) (c : Cache), pyFloat? s = some q →
      lookupCache c (s ++ "m") = none →
      FileSize.from_string c (s ++ "m") =
        .ok (pytrunc ((q.scale 1024).scale 1024),
             (s ++ "m", pytrunc ((q.scale 1024).scale 1024)) :: c))
  ∧ (∀ (s : String) (q : Dec) (c : Cache), pyFloat? s = some q →
      lookupCache c (s ++ "g") = none →
      FileSize.from_string c (s ++ "g") =
        .ok (pytrunc (((q.scale 1024).scale 1024).scale 1024),
             (s ++ "g", pytrunc (((q.scale 1024).scale 1024).scale 1024)) :: c))
  ∧ (∀ (s : String) (q : Dec) (m : Char) (c : Cache), pyFloat? s = some q →
      s.data.getLast? = some m → m ∉ ['b', 'k', 'm', 'g'] →
      lookupCache c s = none →
      FileSize.from_string c s = .ok (pytrunc q, (s, pytrunc q) :: c))
  ∧ FileSize.from_string [] "10k" = .ok (10240, [("10k", 10240)])
  ∧ FileSize.from_string [] "10.5k" = .ok (10752, [("10.5k", 10752)])
  ∧ FileSize.from_string [] "10KB" =
      .error (.valueError (pyq ++ "10KB" ++ pyq ++ " is not a valid FILESIZE string"))
  ∧ FileSize.from_string [] "10M" =
      .error (.valueError (pyq ++ "10M" ++ pyq ++ " is not a valid FILESIZE string")) := by
  refine ⟨?_, ?_, ?_, ?_, ?_, rfl, rfl, rfl, rfl⟩
  · intro s q c hq hc
    exact from_string_miss_ok c _ _ hc (from_string_compute_suffix s q 'b' (by simp) hq)
  · intro s q c hq hc
    exact from_string_miss_ok c _ _ hc (from_string_compute_suffix s q 'k' (by simp) hq)
  · intro s q c hq hc
    exact from_string_miss_ok c _ _ hc (from_string_compute_suffix s q 'm' (by simp) hq)
  · intro s q c hq hc
    exact from_string_miss_ok c _ _ hc (from_string_compute_suffix s q 'g' (by simp) hq)
  · intro s q m c hq hlast hm hc
    exact from_string_miss_ok c _ _ hc (from_string_compute_nosuffix s q m hlast hm hq)

/-- Witness for C1: the `k` branch at the concrete input `"2k"`. -/
theorem fileSize_from_string_spec_witness :
    pyFloat? "2" = some ⟨2, 0⟩ ∧ lookupCache [] ("2" ++ "k") = none ∧
    FileSize.from_string [] ("2" ++ "k") =
      .ok (pytrunc (Dec.scale ⟨2, 0⟩ 1024), [("2" ++ "k", pytrunc (Dec.scale ⟨2, 0⟩ 1024))]) :=
  ⟨rfl, rfl, fileSize_from_string_spec.2.1 "2" ⟨2, 0⟩ [] rfl rfl⟩

/-- Counterexample for C1 as stated: the unit suffix is not
case-insensitive.  `"10K"` is rejected with a `ValueError` (the code checks
`size_str[-1]` against the lower-case literal `"bkmg"` without case
folding), while the claimed case-insensitive parse would produce 10240 as
for `"10k"`. -/
theorem fileSize_case_insensitive_counterexample :
    FileSize.from_string [] "10K" =
      .error (.valueError (pyq ++ "10K" ++ pyq ++ " is not a valid FILESIZE string"))
    ∧ FileSize.from_string [] "10k" = .ok (10240, [("10k", 10240)]) :=
  ⟨rfl, rfl⟩

theorem lookup_cons_self (c : Cache) (s : String) (v : ℤ) :
    lookupCache ((s, v) :: c) s = some v := by
  simp [lookupCache, List.find?]

/-- Appending a recognised (lower-case) unit character selects the suffix
branch of `Unixtime.reltime_to_secs`. -/
theorem reltime_suffix (s : String) (q : Dec) (m : Char)
    (hm : m ∈ ['m', 'h', 'd', 'w', 'y']) (hq : pyFloat? s = some q) :
    Unixtime.reltime_to_secs (s ++ String.mk [m]) =
      .ok (pytrunc (time_multiplier m q)) := by
  have hlow : m.toLower = m := by fin_cases hm <;> rfl
  unfold Unixtime.reltime_to_secs
  rw [String.data_append s (String.mk [m])]
  simp only [show (String.mk [m]).data = [m] from rfl, List.getLast?_concat,
    hlow, hm, if_true, List.dropLast_concat, string_mk_data, hq]

/-- A last character that does not lower-case to a unit letter selects the
default-days branch of `Unixtime.reltime_to_secs`. -/
theorem reltime_default_days (s : String) (q : Dec) (c0 : Char)
    (hlast : s.data.getLast? = some c0) (hm : c0.toLower ∉ ['m', 'h', 'd', 'w', 'y'])
    (hq : pyFloat? s = some q) :
    Unixtime.reltime_to_secs s = .ok (pytrunc (((q.scale 60).scale 60).scale 24)) := by
  unfold Unixtime.reltime_to_secs
  rw [hlast]
  simp only [hm, if_false, hq]
  rfl

/-- A successful relative parse makes the uncached `str_to_secs` body return
`int(time.time() - secs)`. -/
theorem str_to_secs_compute_rel (now : ℤ) (mk : Tm → ℤ) (s : String) (n : ℤ)
    (h : Unixtime.reltime_to_secs s = .ok n) :
    Unixtime.str_to_secs_compute now mk s = .ok (now - n) := by
  unfold Unixtime.str_to_secs_compute
  rw [h]

/-- When the relative parse raises `ValueError` and the string has three
tokens, the body uses the `"%b %d %Y"` format. -/
theorem str_to_secs_compute_abs3 (now : ℤ) (mk : Tm → ℤ) (s : String) (msg : String)
    (tm : Tm) (h : Unixtime.reltime_to_secs s = .error (.valueError msg))
    (hlen : (pySplitWs s).length = 3) (htm : strptime3 s = some tm) :
    Unixtime.str_to_secs_compute now mk s = .ok (mk tm) := by
  unfold Unixtime.str_to_secs_compute
  rw [h]
  simp only [hlen, if_true, htm]

/-- When the relative parse raises `ValueError` and the string does not have
three tokens, the body uses the `"%b %d %Y %H:%M"` format. -/
theorem str_to_secs_compute_abs4 (now : ℤ) (mk : Tm → ℤ) (s : String) (msg : String)
    (tm : Tm) (h : Unixtime.reltime_to_secs s = .error (.valueError msg))
    (hlen : (pySplitWs s).length ≠ 3) (htm : strptime4 s = some tm) :
    Unixtime.str_to_secs_compute now mk s = .ok (mk tm) := by
  unfold Unixtime.str_to_secs_compute
  rw [h]
  simp only [hlen, if_false, htm]

/-- When both the relative and the chosen absolute parse fail, the body
raises the typed `DATETIME` error naming the input. -/
theorem str_to_secs_compute_fail (now : ℤ) (mk : Tm → ℤ) (s : String) (msg : String)
    (h : Unixtime.reltime_to_secs s = .error (.valueError msg))
    (h3 : (pySplitWs s).length = 3 → strptime3 s = none)
    (h4 : (pySplitWs s).length ≠ 3 → strptime4 s = none) :
    Unixtime.str_to_secs_compute now mk s =
      .error (.valueError (pyq ++ s ++ pyq ++ " is not a valid DATETIME")) := by
  unfold Unixtime.str_to_secs_compute
  rw [h]
  by_cases hlen : (pySplitWs s).length = 3
  · simp only [hlen, if_true, h3 hlen]
  · simp only [hlen, if_false, h4 hlen]

/-- A cache miss makes `str_to_secs` compute with the clock of this call and push
the result. -/
theorem str_to_secs_miss_ok (now : ℤ) (mk : Tm → ℤ) (c : Cache) (s : String) (u : ℤ)
    (hc : lookupCache c s = none) (h : Unixtime.str_to_secs_compute now mk s = .ok u) :
    Unixtime.str_to_secs now mk c s = .ok (u, (s, u) :: c) := by
  unfold Unixtime.str_to_secs
  rw [hc, h]

/-- A failing computation on a cache miss propagates the error uncached. -/
theorem str_to_secs_miss_err (now : ℤ) (mk : Tm → ℤ) (c : Cache) (s : String) (e : PyErr)
    (hc : lookupCache c s = none) (h : Unixtime.str_to_secs_compute now mk s = .error e) :
    Unixtime.str_to_secs now mk c s = .error e := by
  unfold Unixtime.str_to_secs
  rw [hc, h]

/-- A cache hit returns the stored value and leaves the cache unchanged. -/
theorem str_to_secs_hit (now : ℤ) (mk : Tm → ℤ) (c : Cache) (s : String) (v : ℤ)
    (hc : lookupCache c s = some v) :
    Unixtime.str_to_secs now mk c s = .ok (v, c) := by
  unfold Unixtime.str_to_secs
  rw [hc]

/-- Claim C2 (amended): `Unixtime.str_to_secs` accepts either a relative
offset (number with optional unit suffix `m`/`h`/`d`/`w`/`y`, default days,
`y` = 365 days) interpreted as that many units before the clock reading of
the call, or an absolute 3-token "Month Day Year" string (midnight implied)
or 4-token form with time-of-day, and any string failing both parses raises
a `ValueError` naming the string; on a CACHE-MISS call, `parse("2w")`
equals `now - 14*86400` at second resolution using the clock at that call
(a later call for the same string returns the value cached by the first call,
not one based on the later clock). -/
theorem unixtime_str_to_secs_spec :
    (∀ (now : ℤ) (mk : Tm → ℤ) (c : Cache), lookupCache c "2w" = none →
      Unixtime.str_to_secs now mk c "2w" =
        .ok (now - 14 * 86400, ("2w", now - 14 * 86400) :: c))
  ∧ (∀ (now : ℤ) (mk : Tm → ℤ) (c : Cache), lookupCache c "2days" = none →
      Unixtime.str_to_secs now mk c "2days" =
        .error (.valueError (pyq ++ "2days" ++ pyq ++ " is not a valid DATETIME")))
  ∧ (∀ (s : String) (n now : ℤ) (mk : Tm → ℤ) (c : Cache),
      Unixtime.reltime_to_secs s = .ok n → lookupCache c s = none →
      Unixtime.str_to_secs now mk c s = .ok (now - n, (s, now - n) :: c))
  ∧ (∀ (s : String) (q : Dec), pyFloat? s = some q →
      Unixtime.reltime_to_secs (s ++ "w") =
        .ok (pytrunc ((((q.scale 60).scale 60).scale 24).scale 7)))
  ∧ (∀ (s : String) (q : Dec), pyFloat? s = some q →
      Unixtime.reltime_to_secs (s ++ "y") =
        .ok (pytrunc ((((q.scale 60).scale 60).scale 24).scale 365)))
  ∧ (∀ (s : String) (q : Dec) (c0 : Char), pyFloat? s = some q →
      s.data.getLast? = some c0 → c0.toLower ∉ ['m', 'h', 'd', 'w', 'y'] →
      Unixtime.reltime_to_secs s = .ok (pytrunc (((q.scale 60).scale 60).scale 24)))
  ∧ (∀ (s msg : String) (tm : Tm) (now : ℤ) (mk : Tm → ℤ) (c : Cache),
      Unixtime.reltime_to_secs s = .error (.valueError msg) →
      (pySplitWs s).length = 3 → strptime3 s = some tm → lookupCache c s = none →
      Unixtime.str_to_secs now mk c s = .ok (mk tm, (s, mk tm) :: c))
  ∧ (∀ (s : String) (tm : Tm), strptime3 s = some tm → tm.hour = 0 ∧ tm.min = 0)
  ∧ (∀ (s msg : String) (tm : Tm) (now : ℤ) (mk : Tm → ℤ) (c : Cache),
      Unixtime.reltime_to_secs s = .error (.valueError msg) →
      (pySplitWs s).length ≠ 3 → strptime4 s = some tm → lookupCache c s = none →
      Unixtime.str_to_secs now mk c s = .ok (mk tm, (s, mk tm) :: c))
  ∧ (∀ (s msg : String) (now : ℤ) (mk : Tm → ℤ) (c : Cache),
      Unixtime.reltime_to_secs s = .error (.valueError msg) →
      ((pySplitWs s).length = 3 → strptime3 s = none) →
      ((pySplitWs s).length ≠ 3 → strptime4 s = none) → lookupCache c s = none →
      Unixtime.str_to_secs now mk c s =
        .error (.valueError (pyq ++ s ++ pyq ++ " is not a valid DATETIME"))) := by
  refine ⟨?_, ?_, ?_, ?_, ?_, ?_, ?_, ?_, ?_, ?_⟩
  · intro now mk c hc
    exact str_to_secs_miss_ok now mk c _ _ hc (str_to_secs_compute_rel now mk _ _ rfl)
  · intro now mk c hc
    exact str_to_secs_miss_err now mk c _ _ hc
      (str_to_secs_compute_fail now mk _ _ rfl (fun h => absurd h (by decide)) (fun _ => rfl))
  · intro s n now mk c h hc
    exact str_to_secs_miss_ok now mk c _ _ hc (str_to_secs_compute_rel now mk _ _ h)
  · intro s q hq
    exact reltime_suffix s q 'w' (by simp) hq
  · intro s q hq
    exact reltime_suffix s q 'y' (by simp) hq
  · intro s q c0 hq hlast hm
    exact reltime_default_days s q c0 hlast hm hq
  · intro s msg tm now mk c h hlen htm hc
    exact str_to_secs_miss_ok now mk c _ _ hc
      (str_to_secs_compute_abs3 now mk s msg tm h hlen htm)
  · intro s tm htm
    unfold strptime3 at htm
    split at htm
    · split at htm
      · cases htm
        exact ⟨rfl, rfl⟩
      · simp at htm
    · simp at htm
  · intro s msg tm now mk c h hlen htm hc
    exact str_to_secs_miss_ok now mk c _ _ hc
      (str_to_secs_compute_abs4 now mk s msg tm h hlen htm)
  · intro s msg now mk c h h3 h4 hc
    exact str_to_secs_miss_err now mk c _ _ hc
      (str_to_secs_compute_fail now mk s msg h h3 h4)

/-- Witness for C2: the relative conjunct at `"2w"` with clock 0 and a
fresh cache. -/
theorem unixtime_str_to_secs_spec_witness :
    Unixtime.reltime_to_secs "2w" = .ok 1209600 ∧ lookupCache [] "2w" = none ∧
    Unixtime.str_to_secs 0 (fun _ => 0) [] "2w" =
      .ok (0 - 1209600, [("2w", 0 - 1209600)]) :=
  ⟨rfl, rfl, unixtime_str_to_secs_spec.2.2.1 "2w" 1209600 0 (fun _ => 0) [] rfl rfl⟩

/-- Counterexample for C2 as stated: because of the `known_strings` cache,
a second call for `"2w"` at a later clock (here 5 seconds later) returns
the value of the first call, not `now - 14*86400` for the clock at call time. -/
theorem unixtime_clock_at_call_counterexample :
    Unixtime.str_to_secs 1000000000 (fun _ => 0) [] "2w" =
      .ok (998790400, [("2w", 998790400)])
  ∧ Unixtime.str_to_secs 1000000005 (fun _ => 0) [("2w", 998790400)] "2w" =
      .ok (998790400, [("2w", 998790400)])
  ∧ (998790400 : ℤ) ≠ 1000000005 - 14 * 86400 :=
  ⟨rfl, rfl, by decide⟩

/-- Claim C10: `Unixtime.str_to_secs` memoizes per input string: after a
first (cache-miss) call computed `v` and pushed it into the cache, every
later call for the same string — at any clock reading — returns exactly
`v` with the cache unchanged, so the reference point of a relative string
is frozen at its first parse. -/
theorem unixtime_cache_freezes_clock :
    ∀ (now1 now2 : ℤ) (mk : Tm → ℤ) (c0 : Cache) (s : String) (v : ℤ) (c1 : Cache),
      lookupCache c0 s = none →
      Unixtime.str_to_secs now1 mk c0 s = .ok (v, c1) →
      Unixtime.str_to_secs now2 mk c1 s = .ok (v, c1) ∧
      lookupCache c1 s = some v ∧ c1 = (s, v) :: c0 := by
  intro now1 now2 mk c0 s v c1 h1 h2
  unfold Unixtime.str_to_secs at h2
  rw [h1] at h2
  cases hcomp : Unixtime.str_to_secs_compute now1 mk s with
  | ok u =>
    rw [hcomp] at h2
    simp only [Except.ok.injEq, Prod.mk.injEq] at h2
    obtain ⟨rfl, rfl⟩ := h2
    exact ⟨str_to_secs_hit now2 mk _ s u (lookup_cons_self c0 s u),
      lookup_cons_self c0 s u, rfl⟩
  | error e =>
    rw [hcomp] at h2
    simp at h2

/-- Witness for C10: two calls for `"2w"`, 94 clock ticks apart, return the
value of the first call. -/
theorem unixtime_cache_freezes_clock_witness :
    lookupCache [] "2w" = none ∧
    Unixtime.str_to_secs 5 (fun _ => 0) [] "2w" = .ok (-1209595, [("2w", -1209595)]) ∧
    (Unixtime.str_to_secs 99 (fun _ => 0) [("2w", -1209595)] "2w" =
        .ok (-1209595, [("2w", -1209595)]) ∧
      lookupCache [("2w", -1209595)] "2w" = some (-1209595) ∧
      ([("2w", -1209595)] : Cache) = [("2w", -1209595)]) :=
  ⟨rfl, rfl, unixtime_cache_freezes_clock 5 99 (fun _ => 0) [] "2w" (-1209595)
    [("2w", -1209595)] rfl rfl⟩

/-- Claim C3: for every scalar kind (`Unixtime`, `Uid`, `Gid`, `FileSize`),
every comparison operator in `<,>,<=,>=,==,!=`, every stored value and
every operand: an integer operand is compared numerically as-is, and a
string operand is first converted through the canonical parser of the kind and
then compared numerically — never lexically.  (The decorated comparison
returns exactly `op.interp` of the stored value and the parsed value, with
the updated cache of the parser.) -/
theorem typed_scalar_compare_spec :
    (∀ (now : ℤ) (mk : Tm → ℤ) (op : CmpOp) (v n : ℤ) (c : Cache),
      Unixtime.compare now mk op v (.inl n) c = .ok (op.interp v n, c))
  ∧ (∀ (now : ℤ) (mk : Tm → ℤ) (op : CmpOp) (v : ℤ) (s : String) (c : Cache)
      (n : ℤ) (c2 : Cache), Unixtime.str_to_secs now mk c s = .ok (n, c2) →
      Unixtime.compare now mk op v (.inr s) c = .ok (op.interp v n, c2))
  ∧ (∀ (win : Bool) (pw : String → Option ℤ) (op : CmpOp) (v n : ℤ) (c : Cache),
      Uid.compare win pw op v (.inl n) c = .ok (op.interp v n, c))
  ∧ (∀ (win : Bool) (pw : String → Option ℤ) (op : CmpOp) (v : ℤ) (s : String)
      (c : Cache) (n : ℤ) (c2 : Cache), Uid.from_str win pw c s = .ok (n, c2) →
      Uid.compare win pw op v (.inr s) c = .ok (op.interp v n, c2))
  ∧ (∀ (win : Bool) (gr : String → Option ℤ) (op : CmpOp) (v n : ℤ) (c : Cache),
      Gid.compare win gr op v (.inl n) c = .ok (op.interp v n, c))
  ∧ (∀ (win : Bool) (gr : String → Option ℤ) (op : CmpOp) (v : ℤ) (s : String)
      (c : Cache) (n : ℤ) (c2 : Cache), Gid.from_str win gr c s = .ok (n, c2) →
      Gid.compare win gr op v (.inr s) c = .ok (op.interp v n, c2))
  ∧ (∀ (op : CmpOp) (v n : ℤ) (c : Cache),
      FileSize.compare op v (.inl n) c = .ok (op.interp v n, c))
  ∧ (∀ (op : CmpOp) (v : ℤ) (s : String) (c : Cache) (n : ℤ) (c2 : Cache),
      FileSize.from_string c s = .ok (n, c2) →
      FileSize.compare op v (.inr s) c = .ok (op.interp v n, c2)) := by
  refine ⟨fun _ _ _ _ _ _ => rfl, ?_, fun _ _ _ _ _ _ => rfl, ?_,
    fun _ _ _ _ _ _ => rfl, ?_, fun _ _ _ _ => rfl, ?_⟩
  · intro now mk op v s c n c2 h
    show Except.map (fun p => (op.interp v p.1, p.2)) (Unixtime.str_to_secs now mk c s) =
      Except.ok (op.interp v n, c2)
    rw [h]
    rfl
  · intro win pw op v s c n c2 h
    show Except.map (fun p => (op.interp v p.1, p.2)) (Uid.from_str win pw c s) =
      Except.ok (op.interp v n, c2)
    rw [h]
    rfl
  · intro win gr op v s c n c2 h
    show Except.map (fun p => (op.interp v p.1, p.2)) (Gid.from_str win gr c s) =
      Except.ok (op.interp v n, c2)
    rw [h]
    rfl
  · intro op v s c n c2 h
    show Except.map (fun p => (op.interp v p.1, p.2)) (FileSize.from_string c s) =
      Except.ok (op.interp v n, c2)
    rw [h]
    rfl

/-- Witness for C3: one string-operand comparison per kind at concrete
inputs (`0 < "2w"` under clock 0, `0 == "root"`, `0 != "wheel"`,
`2048 <= "2k"`). -/
theorem typed_scalar_compare_spec_witness :
    (Unixtime.str_to_secs 0 (fun _ => 0) [] "2w" = .ok (-1209600, [("2w", -1209600)]) ∧
      Unixtime.compare 0 (fun _ => 0) .lt 0 (.inr "2w") [] =
        .ok (CmpOp.interp .lt 0 (-1209600), [("2w", -1209600)]))
  ∧ (Uid.from_str false (fun s => if s = "root" then some 0 else none) [] "root" =
        .ok (0, [("root", 0)]) ∧
      Uid.compare false (fun s => if s = "root" then some 0 else none) .eq 0 (.inr "root") [] =
        .ok (CmpOp.interp .eq 0 0, [("root", 0)]))
  ∧ (Gid.from_str false (fun s => if s = "wheel" then some 10 else none) [] "wheel" =
        .ok (10, [("wheel", 10)]) ∧
      Gid.compare false (fun s => if s = "wheel" then some 10 else none) .ne 0 (.inr "wheel") [] =
        .ok (CmpOp.interp .ne 0 10, [("wheel", 10)]))
  ∧ (FileSize.from_string [] "2k" = .ok (2048, [("2k", 2048)]) ∧
      FileSize.compare .le 2048 (.inr "2k") [] =
        .ok (CmpOp.interp .le 2048 2048, [("2k", 2048)])) :=
  ⟨⟨rfl, typed_scalar_compare_spec.2.1 0 (fun _ => 0) .lt 0 "2w" [] (-1209600)
      [("2w", -1209600)] rfl⟩,
   ⟨rfl, typed_scalar_compare_spec.2.2.2.1 false (fun s => if s = "root" then some 0 else none)
      .eq 0 "root" [] 0 [("root", 0)] rfl⟩,
   ⟨rfl, typed_scalar_compare_spec.2.2.2.2.2.1 false
      (fun s => if s = "wheel" then some 10 else none) .ne 0 "wheel" [] 10 [("wheel", 10)] rfl⟩,
   ⟨rfl, typed_scalar_compare_spec.2.2.2.2.2.2.2 .le 2048 "2k" [] 2048 [("2k", 2048)] rfl⟩⟩

theorem passes_filters_iff (r : FileRec) :
    ∀ fl : List LsFilter, passes_filters fl r = true ↔ ∀ f ∈ fl, evalFilter r f = true := by
  intro fl
  induction fl with
  | nil => simp [passes_filters]
  | cons f fs ih =>
    by_cases h : evalFilter r f
    · simp [passes_filters, h, ih]
    · simp [passes_filters, h]

theorem passes_filters_count_fst (r : FileRec) :
    ∀ fl : List LsFilter, (passes_filters_count fl r).1 = passes_filters fl r := by
  intro fl
  induction fl with
  | nil => rfl
  | cons f fs ih =>
    by_cases h : evalFilter r f
    · simp [passes_filters_count, passes_filters, h, ih]
    · simp [passes_filters_count, passes_filters, h]

theorem passes_filters_count_snd (r : FileRec) :
    ∀ fl : List LsFilter, (passes_filters_count fl r).2 =
      min fl.length ((fl.takeWhile (evalFilter r)).length + 1) := by
  intro fl
  induction fl with
  | nil => rfl
  | cons f fs ih =>
    simp only [passes_filters_count, List.takeWhile_cons, List.length_cons]
    by_cases h : evalFilter r f
    · simp only [h, if_true, ih, List.length_cons]
      omega
    · rw [Bool.not_eq_true] at h
      simp only [h, Bool.false_eq_true, if_false, List.length_nil]
      omega

/-- Claim C4: `passes_filters` is the conjunction of the registered
predicates (true exactly when every one holds; in particular the empty
filter list passes every record, and `apply_all_filters` with no filters
returns the input list unchanged), and evaluation short-circuits: the loop
evaluates exactly the passing front segment plus the first failing predicate,
never the predicates after the first failure. -/
theorem passes_filters_conjunction_spec :
    (∀ (fl : List LsFilter) (r : FileRec),
      passes_filters fl r = true ↔ ∀ f ∈ fl, evalFilter r f = true)
  ∧ (∀ r : FileRec, passes_filters [] r = true)
  ∧ (∀ statlist : List FileRec, apply_all_filters [] statlist = statlist)
  ∧ (∀ (fl : List LsFilter) (r : FileRec),
      (passes_filters_count fl r).1 = passes_filters fl r)
  ∧ (∀ (fl : List LsFilter) (r : FileRec),
      (passes_filters_count fl r).2 =
        min fl.length ((fl.takeWhile (evalFilter r)).length + 1)) :=
  ⟨fun fl r => passes_filters_iff r fl,
   fun _ => rfl,
   fun _ => rfl,
   fun fl r => passes_filters_count_fst r fl,
   fun fl r => passes_filters_count_snd r fl⟩

/-- A `FileRec` with every field zero or empty, used as the base of the
concrete test records below. -/
def baseRec : FileRec := ⟨0, 0, 0, 0, 0, 0, 0, 0, 0, 0, "", "", "", "", 0⟩

/-- A record with a given size and name. -/
def recOfSize (n : ℤ) (nm : String) : FileRec := { baseRec with size := n, name := nm }

/-- A record with a given `S_IFMT` type code and name. -/
def recOfType (t : ℤ) (nm : String) : FileRec := { baseRec with Typecode := t, name := nm }

/-- Claim C5: a size filter registered with operand `"1k"` uses the default
strictly-less-than comparison against 1024, and operand `"+1k"` the
inverted strictly-greater-than comparison; on records of sizes
`[100, 2048, 10240]` the default filter keeps only the 100-byte record and
the inverted filter keeps exactly the records of at least 1024 bytes
(here 2048 and 10240, both strictly above 1024). -/
theorem size_filter_1k_spec :
    (∀ (env : Env) (r : FileRec),
      (add_filter env "size" "1k").map (fun F => evalFilter r F) =
        .ok (decide (r.size < 1024)))
  ∧ (∀ (env : Env) (r : FileRec),
      (add_filter env "size" "+1k").map (fun F => evalFilter r F) =
        .ok (decide (1024 < r.size)))
  ∧ (∀ env : Env,
      (add_filter env "size" "1k").map (fun F =>
          (apply_all_filters [F] [recOfSize 100 "x", recOfSize 2048 "y", recOfSize 10240 "z"]).map
            (fun r => r.size)) = .ok [100])
  ∧ (∀ env : Env,
      (add_filter env "size" "+1k").map (fun F =>
          (apply_all_filters [F] [recOfSize 100 "x", recOfSize 2048 "y", recOfSize 10240 "z"]).map
            (fun r => r.size)) = .ok [2048, 10240]) :=
  ⟨fun _ _ => rfl, fun _ _ => rfl, fun _ => rfl, fun _ => rfl⟩

/-- Claim C6: the resolved type-character set maps to `S_IFMT` codes and,
whenever the link letter `l` is in the set, type code `0` (the broken-link
sentinel) is appended, so broken links are filtered as links; on entries of
types regular / directory / broken link, `-e d` excludes only the
directory, and the inverted `-e +d` keeps only the directory. -/
theorem typecode_filter_spec :
    (∀ (s : String) (cs : List Char), resolved_tc_set s = .ok cs → 'l' ∈ cs →
      typecode_list_from_string s = .ok (cs.map FileTypeCode.from_char ++ [0]))
  ∧ (∀ env : Env,
      (add_filter env "Typecode" "d").map (fun F =>
          (apply_all_filters [F]
              [recOfType 32768 "reg", recOfType 16384 "dir", recOfType 0 "broken"]).map
            (fun r => r.name)) = .ok ["reg", "broken"])
  ∧ (∀ env : Env,
      (add_filter env "Typecode" "+d").map (fun F =>
          (apply_all_filters [F]
              [recOfType 32768 "reg", recOfType 16384 "dir", recOfType 0 "broken"]).map
            (fun r => r.name)) = .ok ["dir"])
  ∧ (∀ env : Env,
      (add_filter env "Typecode" "l").map (fun F =>
          (apply_all_filters [F]
              [recOfType 32768 "reg", recOfType 16384 "dir", recOfType 0 "broken"]).map
            (fun r => r.name)) = .ok ["reg", "dir"]) := by
  refine ⟨?_, fun _ => rfl, fun _ => rfl, fun _ => rfl⟩
  intro s cs h hl
  unfold typecode_list_from_string
  rw [h]
  simp [Except.map, hl]

/-- Witness for C6: the resolved set of `"l"` contains the link letter, so
the type-code list gets the broken-link sentinel `0` appended. -/
theorem typecode_filter_spec_witness :
    resolved_tc_set "l" = .ok ['l'] ∧ ('l' : Char) ∈ ['l'] ∧
    typecode_list_from_string "l" = .ok (['l'].map FileTypeCode.from_char ++ [0]) :=
  ⟨rfl, by decide, typecode_filter_spec.1 "l" ['l'] rfl (by decide)⟩

theorem py_insert_perm (lt : α → α → Bool) (x : α) :
    ∀ l : List α, (py_insert lt x l).Perm (x :: l) := by
  intro l
  induction l with
  | nil => exact List.Perm.refl _
  | cons y ys ih =>
    unfold py_insert
    by_cases h : lt y x
    · simp only [h, if_true]
      exact (ih.cons y).trans (List.Perm.swap x y ys)
    · simp only [h, if_false]
      exact List.Perm.refl _

theorem py_sort_perm (lt : α → α → Bool) : ∀ l : List α, (py_sort lt l).Perm l := by
  intro l
  induction l with
  | nil => exact List.Perm.refl _
  | cons x xs ih =>
    exact (py_insert_perm lt x (py_sort lt xs)).trans (ih.cons x)

theorem sort_fold_perm (rev : Bool) :
    ∀ (cs : List Char) (l : List FileRec),
      (cs.foldl (fun acc letter => list_sort_key (getField letter) rev acc) l).Perm l := by
  intro cs
  induction cs with
  | nil => intro l; exact List.Perm.refl _
  | cons c cs ih =>
    intro l
    exact (ih _).trans (py_sort_perm _ l)

theorem sort_stats_perm (spec : String) (l : List FileRec) :
    (sort_stats spec l).Perm l :=
  sort_fold_perm (arg_has_plus spec).2 (arg_has_plus spec).1.data.reverse l

theorem py_insert_tie_id (lt : α → α → Bool) (hlt : ∀ a b, lt a b = false) (x : α) :
    ∀ l : List α, py_insert lt x l = x :: l := by
  intro l
  cases l with
  | nil => rfl
  | cons y ys => simp [py_insert, hlt y x]

theorem py_sort_tie_id (lt : α → α → Bool) (hlt : ∀ a b, lt a b = false) :
    ∀ l : List α, py_sort lt l = l := by
  intro l
  induction l with
  | nil => rfl
  | cons x xs ih => simp [py_sort, ih, py_insert_tie_id lt hlt x]

theorem py_insert_pairwise (f : α → ℤ) (x : α) :
    ∀ l : List α, l.Pairwise (fun a b => f a ≤ f b) →
      (py_insert (fun a b => decide (f a < f b)) x l).Pairwise (fun a b => f a ≤ f b) := by
  intro l
  induction l with
  | nil => intro _; exact List.pairwise_singleton _ x
  | cons y ys ih =>
    intro h
    rw [List.pairwise_cons] at h
    obtain ⟨h1, h2⟩ := h
    unfold py_insert
    by_cases hlt : f y < f x
    · simp only [hlt, decide_True, if_true]
      rw [List.pairwise_cons]
      refine ⟨?_, ih h2⟩
      intro b hb
      rcases List.mem_cons.mp ((py_insert_perm _ x ys).mem_iff.mp hb) with hb | hb
      · exact hb ▸ le_of_lt hlt
      · exact h1 b hb
    · simp only [hlt, decide_False, Bool.false_eq_true, if_false]
      rw [List.pairwise_cons]
      refine ⟨?_, List.pairwise_cons.mpr ⟨h1, h2⟩⟩
      intro b hb
      rcases List.mem_cons.mp hb with hb | hb
      · exact hb ▸ le_of_not_lt hlt
      · exact le_trans (le_of_not_lt hlt) (h1 b hb)

theorem py_sort_pairwise (f : α → ℤ) :
    ∀ l : List α,
      (py_sort (fun a b => decide (f a < f b)) l).Pairwise (fun a b => f a ≤ f b) := by
  intro l
  induction l with
  | nil => exact List.Pairwise.nil
  | cons x xs ih => exact py_insert_pairwise f x _ ih

/-- Claim C7: the sort engine runs the key letters as repeated stable
single-key sorts from the last (least significant) to the first (most
significant) key, with one global reverse flag (a leading `+`) applied
uniformly to every key and no per-key direction; `main` appends the name
key `n` as the lowest-priority key whenever it is absent; the result is a
permutation of the input; a pass over records whose keys are all tied is
the identity (stability); after sorting by `"sn"` the sizes are
nondecreasing (the first key dominates); and the records
`[(size 5, "b"), (size 5, "a")]` sorted by size ascending come out as
`[(5, "a"), (5, "b")]` through the implicit name tie-break. -/
theorem sort_engine_spec :
    (∀ o : Option String, 'n' ∈ (effective_sort o).data)
  ∧ (∀ (spec : String) (l : List FileRec), (sort_stats spec l).Perm l)
  ∧ (∀ (lt : FileRec → FileRec → Bool) (l : List FileRec),
      (∀ a b, lt a b = false) → py_sort lt l = l)
  ∧ (∀ l : List FileRec,
      (sort_stats "sn" l).Pairwise (fun a b => a.size ≤ b.size))
  ∧ sort_stats (effective_sort (some "s")) [recOfSize 5 "b", recOfSize 5 "a"] =
      [recOfSize 5 "a", recOfSize 5 "b"]
  ∧ sort_stats (effective_sort (some "+s"))
        [recOfSize 5 "a", recOfSize 5 "b", recOfSize 7 "c"] =
      [recOfSize 7 "c", recOfSize 5 "b", recOfSize 5 "a"] := by
  refine ⟨?_, fun spec l => sort_stats_perm spec l, fun lt l h => py_sort_tie_id lt h l,
    ?_, rfl, rfl⟩
  · intro o
    unfold effective_sort
    cases o with
    | none => decide
    | some t =>
      by_cases ht : t = ""
      · rw [ht]
        decide
      · simp only [ht, if_false]
        by_cases hn : 'n' ∈ t.data
        · simp [hn]
        · simp [hn, String.data_append]
  · intro l
    have e : sort_stats "sn" l =
        py_sort (fun a b => decide (a.size < b.size))
          (py_sort (fun a b => pyStrLt a.name.data b.name.data) l) := rfl
    rw [e]
    exact py_sort_pairwise (fun r : FileRec => r.size) _

/-- Witness for C7: the tie-stability conjunct at a concrete all-false
comparison over two records. -/
theorem sort_engine_spec_witness :
    (∀ a b : FileRec, (fun _ _ : FileRec => false) a b = false) ∧
    py_sort (fun _ _ : FileRec => false) [recOfSize 1 "q", recOfSize 2 "r"] =
      [recOfSize 1 "q", recOfSize 2 "r"] :=
  ⟨fun _ _ => rfl,
   sort_engine_spec.2.2.1 (fun _ _ => false) [recOfSize 1 "q", recOfSize 2 "r"]
     (fun _ _ => rfl)⟩

/-- Claim C8: failing operand parses raise typed errors naming the
offending string and the expected kind, registration parses operands
eagerly (`add_filter` returns the typed error before any traversal state
exists), and a per-entry stat failure yields no record while traversal
continues — EXCEPT that on Windows (`os.name == "nt"`) `Uid.from_str` and
`Gid.from_str` silently return `0` for every uncached string, including
invalid names, contradicting the claim and their own docstrings/doctests
(which promise `ValueError` unconditionally). -/
theorem error_policy_spec :
    (∀ pw : String → Option ℤ,
      Uid.from_str true pw [] "not_a_valid_user_or_id" = .ok (0, []))
  ∧ Uid.from_str false (fun _ => none) [] "not_a_valid_user_or_id" =
      .error (.valueError
        (pyq ++ "not_a_valid_user_or_id" ++ pyq ++ " is not a valid username or UID"))
  ∧ Gid.from_str false (fun _ => none) [] "not_a_valid_group_or_id" =
      .error (.valueError
        (pyq ++ "not_a_valid_group_or_id" ++ pyq ++ " is not a valid group name or GID"))
  ∧ (∀ env : Env, add_filter env "size" "xyz" =
      .error (.valueError (pyq ++ "xyz" ++ pyq ++ " is not a valid FILESIZE string")))
  ∧ (∀ (win : Bool) (pw gr : String → Option ℤ) (now : ℤ) (mk : Tm → ℤ)
      (rx : String → Option (String → Bool)) (pe : String → Option (FileRec → Bool)),
      add_filter ⟨win, pw, gr, now, mk, rx, pe⟩ "mtime" "2days" =
        .error (.valueError (pyq ++ "2days" ++ pyq ++ " is not a valid DATETIME")))
  ∧ stat_files [.file "x" none, .file "y" (some baseRec), .file "z" none] = [baseRec] := by
  refine ⟨fun pw => rfl, rfl, rfl, fun env => rfl, ?_, rfl⟩
  intro win pw gr now mk rx pe
  unfold add_filter
  rw [show ("2days".data) = ['2', 'd', 'a', 'y', 's'] from rfl]
  show (match (Unixtime.str_to_secs now mk [] "2days").map (fun p => p.1) with
    | .error e => Except.error e
    | .ok n => Except.ok (LsFilter.gt "mtime" "2days" (fieldIndex "mtime") n)) =
    Except.error (.valueError (pyq ++ "2days" ++ pyq ++ " is not a valid DATETIME"))
  rw [str_to_secs_miss_err now mk [] "2days" _ rfl
    (str_to_secs_compute_fail now mk _ _ rfl (fun h => absurd h (by decide)) (fun _ => rfl))]
  rfl

theorem sort_fold_nil (rev : Bool) :
    ∀ cs : List Char,
      cs.foldl (fun acc letter => list_sort_key (getField letter) rev acc) [] = [] := by
  intro cs
  induction cs with
  | nil => rfl
  | cons c cs ih => exact ih

theorem sort_stats_nil (spec : String) : sort_stats spec [] = [] :=
  sort_fold_nil (arg_has_plus spec).2 (arg_has_plus spec).1.data.reverse

theorem apply_all_filters_nil (fl : List LsFilter) : apply_all_filters fl [] = [] := by
  unfold apply_all_filters
  by_cases h : fl.isEmpty <;> simp [h]

theorem finalize_nil (o : Opts) (fl : List LsFilter) : finalize o fl [] = [] := by
  unfold finalize
  rw [apply_all_filters_nil, sort_stats_nil]

/-- Evaluation of `stat_directory` on a directory with no subdirectories
among the listed entries: recursion contributes nothing and the result is
the single group (default mode) or the returned record list (merge mode). -/
theorem stat_directory_flat (o : Opts) (fl : List LsFilter) (fuel : ℕ) (nm : String)
    (st : Option FileRec) (children files : List FsNode)
    (hfiles : files = if o.all then children
      else children.filter (fun f => !isHiddenName (nodeName f)))
    (hsubs : files.filter isDirNode = []) :
    stat_directory o fl (fuel + 1) (.dir nm st children) =
      if files.isEmpty then ([], [])
      else if !o.merge then ([finalize o fl (stat_files files)], [])
      else ([], stat_files files) := by
  simp only [stat_directory]
  rw [← hfiles]
  by_cases hemp : files.isEmpty
  · simp [hemp]
  · simp only [hemp, Bool.false_eq_true, if_false]
    by_cases hrec : o.recursive
    · simp only [hrec, if_true, hsubs, List.map_nil, List.flatten_nil, List.append_nil]
    · simp only [hrec, Bool.false_eq_true, if_false]

/-- Claim C9: for a single flat directory (no subdirectory entries), merge
mode and the default per-directory mode produce exactly the same sequence
of filtered, sorted records — the modes differ only in when the group is
flushed to the display layer. -/
theorem merge_default_same_content :
    ∀ (o : Opts) (fl : List LsFilter) (fuel : ℕ) (nm : String) (st : Option FileRec)
      (children : List FsNode), (∀ c ∈ children, isDirNode c = false) →
      (show_paths_single { o with merge := false } fl fuel (.dir nm st children)).flatten =
        (show_paths_single { o with merge := true } fl fuel (.dir nm st children)).flatten := by
  intro o fl fuel nm st children hflat
  cases fuel with
  | zero => rfl
  | succ fuel =>
    set files := if o.all then children
      else children.filter (fun f => !isHiddenName (nodeName f)) with hfiles
    have hmem : ∀ c ∈ files, c ∈ children := by
      intro c hc
      rw [hfiles] at hc
      by_cases ha : o.all
      · rw [if_pos ha] at hc
        exact hc
      · rw [if_neg ha] at hc
        exact (List.mem_filter.mp hc).1
    have hsubs : files.filter isDirNode = [] :=
      List.filter_eq_nil_iff.mpr (fun c hc => by simp [hflat c (hmem c hc)])
    have e1 := stat_directory_flat { o with merge := false } fl fuel nm st children files
      hfiles hsubs
    have e2 := stat_directory_flat { o with merge := true } fl fuel nm st children files
      hfiles hsubs
    unfold show_paths_single
    rw [e1, e2]
    by_cases hemp : files.isEmpty
    · simp [hemp]
    · simp only [hemp, Bool.false_eq_true, if_false, Bool.not_false, Bool.not_true, if_true]
      by_cases hS : (stat_files files).isEmpty
      · have hnil : stat_files files = [] := List.isEmpty_iff.mp hS
        simp [hnil, finalize_nil]
      · simp only [hS, Bool.false_eq_true, if_false, List.isEmpty_nil, if_true]
        simp [finalize]

/-- Witness for C9: a flat directory with two regular files, one
stat-failing entry and one hidden entry, visited with filters off and name
sort, gives the same flattened content in both modes. -/
theorem merge_default_same_content_witness :
    (∀ c ∈ [FsNode.file "b" (some (recOfSize 5 "b")), FsNode.file "a" (some (recOfSize 5 "a")),
        FsNode.file "bad" none, FsNode.file ".hid" (some (recOfSize 7 "h"))],
      isDirNode c = false) ∧
    (show_paths_single { all := false, merge := false, recursive := true, sort := "n" } [] 3
        (.dir "top" none
          [FsNode.file "b" (some (recOfSize 5 "b")), FsNode.file "a" (some (recOfSize 5 "a")),
           FsNode.file "bad" none, FsNode.file ".hid" (some (recOfSize 7 "h"))])).flatten =
      (show_paths_single { all := false, merge := true, recursive := true, sort := "n" } [] 3
        (.dir "top" none
          [FsNode.file "b" (some (recOfSize 5 "b")), FsNode.file "a" (some (recOfSize 5 "a")),
           FsNode.file "bad" none, FsNode.file ".hid" (some (recOfSize 7 "h"))])).flatten :=
  ⟨by decide,
   merge_default_same_content ⟨false, false, true, "n"⟩ [] 3 "top" none
     [FsNode.file "b" (some (recOfSize 5 "b")), FsNode.file "a" (some (recOfSize 5 "a")),
      FsNode.file "bad" none, FsNode.file ".hid" (some (recOfSize 7 "h"))] (by decide)⟩

/-- Witness for C4: the conjunction semantics and the empty filter list at
concrete inputs. -/
theorem passes_filters_conjunction_spec_witness :
    (passes_filters [] baseRec = true ↔ ∀ f ∈ ([] : List LsFilter), evalFilter baseRec f = true)
    ∧ apply_all_filters [] [baseRec] = [baseRec] :=
  ⟨passes_filters_conjunction_spec.1 [] baseRec,
   passes_filters_conjunction_spec.2.2.1 [baseRec]⟩
